import Mathlib

/-!
Shallow embedding of the reconciliation endpoint of `src/app.py`
(repository makilagied/reconciliations).

The core of the program (lines 104-149 of `src/app.py`) is a pandas
pipeline: the uploaded spreadsheet is cut down to the three required
columns, the DB-side JSON records become a DataFrame, the two frames are
outer-merged on the composite key `(id, reference)` with
`suffixes=("_excel", "_db")` and `indicator=True`, and the merged rows
are classified into reconciled rows (`_merge == 'both'` and
`amount_excel == amount_db`), amount mismatches, Excel-only rows and
DB-only rows.  The three unreconciled categories are concatenated (in
that order), the `_merge` indicator column is dropped from them, and the
response is the pair of the reconciled rows and the concatenated
unreconciled rows, each rendered with `to_dict(orient='records')`.

Modelling choices, each matching the pandas/Python semantics of the
source:
* a cell value (`Val`) is an integer, a string, or NaN; a DataFrame cell
  that was absent from an input dict is NaN;
* Python `==` on cells (`pyEq`) makes NaN unequal to everything,
  including NaN, and never equates an integer with a string;
* merge keys, in contrast, are matched by pandas with NaN keys matching
  NaN keys, so `keyMatch` is structural equality on the key pair;
* a record / output row is an association list from column names to
  values, the shape `to_dict(orient='records')` produces;
* `merge(..., how='outer', sort=False (default), indicator=True)`
  processes the left rows in order, pairing each with every matching
  right row in right order (a left row with no match yields a LEFT_ONLY
  row in place), and then appends the unmatched right rows in right
  order, as `mergeRows` does;
* validation order follows the source: the first DB record's keys are
  checked (line 55) before the Excel column set (line 100); an empty DB
  list makes line 55 evaluate `db_data[0]`, raising an `IndexError` that
  no `except` clause of the function catches (the first `try` catches
  only `json.JSONDecodeError`), so the request fails with a generic
  uncaught exception, modelled as `ApiError.uncaughtIndexError`.

The embedding is faithful for inputs in which the DB side carries the
three required columns (otherwise line 113 or 117 of the source raises a
`KeyError`) and no DB column is named `_merge`, `amount_excel` or
`amount_db` (otherwise pandas itself raises in `merge`); theorems about
the pipeline carry these conditions (`validDb`, `reservedFree`) as
hypotheses.
-/

/-- A cell value of a pandas DataFrame built from parsed spreadsheet or
JSON data: an integer, a string, or a missing value (NaN). -/
inductive Val where
  | int : Int → Val
  | str : String → Val
  | nan : Val
  deriving DecidableEq, Repr

/-- Python `==` on two cell values, as pandas evaluates
`merged['amount_excel'] == merged['amount_db']` elementwise: NaN
compares unequal to everything (NaN included), and an integer never
equals a string. -/
def pyEq : Val → Val → Bool
  | Val.int a, Val.int b => a == b
  | Val.str a, Val.str b => a == b
  | _, _ => false

/-- A record (one row of either input, or one output dict): an
association list from column name to cell value, the shape that
`to_dict(orient='records')` serialises. -/
abbrev Rec := List (String × Val)

/-- Reading a cell: a column absent from a record reads as NaN, as
pandas fills missing dict keys with NaN when building a DataFrame from a
list of dicts. -/
def getField (r : Rec) (c : String) : Val := (r.lookup c).getD Val.nan

/-- Key membership, Python's `col in record` on a dict. -/
def hasField (r : Rec) (c : String) : Bool := (r.lookup c).isSome

/-- `REQUIRED_COLUMNS = {"id", "reference", "amount"}` (src/app.py
line 12).  The source holds these in a Python set, whose iteration
order is irrelevant to every record-level statement below; a fixed
listing order is chosen here. -/
def REQUIRED_COLUMNS : List String := ["id", "reference", "amount"]

/-- Column accumulation for `pd.DataFrame(list_of_dicts)`: the keys of
one record are appended to an accumulator in order, skipping those
already present. -/
def addCols (acc : List String) (r : Rec) : List String :=
  r.foldl (fun a p => if a.contains p.1 then a else a ++ [p.1]) acc

/-- The column list of `pd.DataFrame(db_data)`: the union of the
records' keys in order of first appearance. -/
def dfCols (rs : List Rec) : List String := rs.foldl addCols []

/-- Line 105, per row: `df_excel = df_excel[list(REQUIRED_COLUMNS)]`
keeps only the three required columns of the spreadsheet frame. -/
def cutRec (r : Rec) : Rec := REQUIRED_COLUMNS.map (fun c => (c, getField r c))

/-- The spreadsheet frame after line 105: every row cut down to the
required columns. -/
def filteredExcel (ex : List Rec) : List Rec := ex.map cutRec

/-- One row of
`df_excel.merge(df_db, on=["id","reference"], how="outer", indicator=True)`:
the contributing spreadsheet-side row (already cut to the required
columns), the contributing DB-side row, or both.  The `_merge`
indicator value is determined by which sides are present. -/
structure JoinRow where
  left : Option Rec
  right : Option Rec
  deriving DecidableEq, Repr

/-- The composite join key of a record, `(id, reference)`. -/
def keyOf (r : Rec) : Val × Val := (getField r "id", getField r "reference")

/-- Join-key equality.  pandas matches merge keys by value, and (unlike
`==` on data cells) does match a NaN key with a NaN key, so this is
structural equality of the key pairs. -/
def keyMatch (l r : Rec) : Bool := decide (keyOf l = keyOf r)

/-- The merge rows contributed by one left (spreadsheet-side) row: one
BOTH row per matching right row, in right-frame order, or a single
LEFT_ONLY row when nothing matches. -/
def leftRows (db : List Rec) (l : Rec) : List JoinRow :=
  if (db.filter (fun r => keyMatch l r)).isEmpty then [⟨some l, none⟩]
  else (db.filter (fun r => keyMatch l r)).map (fun r => ⟨some l, some r⟩)

/-- The left-driven part of the outer merge: the blocks of `leftRows`,
one per left row, in left-frame order. -/
def leftPart (db : List Rec) : List Rec → List JoinRow
  | [] => []
  | l :: ls => leftRows db l ++ leftPart db ls

/-- The full outer merge (line 113): left-driven rows first, then one
RIGHT_ONLY row for each right row whose key matches no left row, in
right-frame order (`sort=False`). -/
def mergeRows (ex db : List Rec) : List JoinRow :=
  leftPart db ex ++
    (db.filter (fun r => ex.all (fun l => !(keyMatch l r)))).map
      (fun r => ⟨none, some r⟩)

/-- `_merge == 'both'`. -/
def isBoth (j : JoinRow) : Bool := j.left.isSome && j.right.isSome

/-- `_merge == 'left_only'`. -/
def isLeftOnly (j : JoinRow) : Bool := j.left.isSome && !j.right.isSome

/-- `_merge == 'right_only'`. -/
def isRightOnly (j : JoinRow) : Bool := !j.left.isSome && j.right.isSome

/-- The `amount_excel` cell of a merged row (NaN when the row has no
spreadsheet side). -/
def amountExcel (j : JoinRow) : Val :=
  match j.left with
  | some l => getField l "amount"
  | none => Val.nan

/-- The `amount_db` cell of a merged row (NaN when the row has no DB
side). -/
def amountDb (j : JoinRow) : Val :=
  match j.right with
  | some r => getField r "amount"
  | none => Val.nan

/-- Line 134: merged rows with `_merge == 'both'` and
`amount_excel == amount_db`. -/
def reconciledRows (ex db : List Rec) : List JoinRow :=
  (mergeRows (filteredExcel ex) db).filter
    (fun j => isBoth j && pyEq (amountExcel j) (amountDb j))

/-- Line 117: merged rows with `_merge == 'both'` and
`amount_excel != amount_db`. -/
def mismatchRows (ex db : List Rec) : List JoinRow :=
  (mergeRows (filteredExcel ex) db).filter
    (fun j => isBoth j && !pyEq (amountExcel j) (amountDb j))

/-- Line 122: merged rows with `_merge == 'left_only'`. -/
def onlyExcelRows (ex db : List Rec) : List JoinRow :=
  (mergeRows (filteredExcel ex) db).filter isLeftOnly

/-- Line 124: merged rows with `_merge == 'right_only'`. -/
def onlyDbRows (ex db : List Rec) : List JoinRow :=
  (mergeRows (filteredExcel ex) db).filter isRightOnly

/-- A key cell of a merged row: merge keys are taken from whichever side
is present (the left one when both are, where they agree). -/
def keyVal (j : JoinRow) (c : String) : Val :=
  match j.left with
  | some l => getField l c
  | none =>
    match j.right with
    | some r => getField r c
    | none => Val.nan

/-- The non-key output columns contributed by the DB frame: every
`df_db` column except the join keys. -/
def rightCols (db : List Rec) : List String :=
  (dfCols db).filter (fun c => c != "id" && c != "reference")

/-- The merge suffix renaming: `amount` is the only column of the cut
spreadsheet frame overlapping a DB column outside the join keys, so on
the right side exactly `amount` becomes `amount_db`. -/
def outName (c : String) : String := if c = "amount" then "amount_db" else c

/-- One merged row rendered as the dict `to_dict(orient='records')`
produces, before the `_merge` indicator column: the join keys, the
spreadsheet amount (renamed `amount_excel`), then every non-key DB
column (with `amount` renamed `amount_db`), read from the DB side and
NaN when that side is absent. -/
def rowDict (db : List Rec) (j : JoinRow) : Rec :=
  [("id", keyVal j "id"), ("reference", keyVal j "reference"),
    ("amount_excel", amountExcel j)] ++
    (rightCols db).map (fun c =>
      (outName c,
        match j.right with
        | some r => getField r c
        | none => Val.nan))

/-- Column assignment, `frame[col] = value` on every row: pandas
overwrites an existing column in place and otherwise appends the column
at the end. -/
def setCol (d : Rec) (c : String) (v : Val) : Rec :=
  if d.any (fun p => p.1 = c) then
    d.map (fun p => if p.1 = c then (c, v) else p)
  else d ++ [(c, v)]

/-- Lines 117-118 rendered: each amount-mismatch row as an output dict,
`Mismatch Reason` set to `'Amount Mismatch'`, `_merge` dropped. -/
def mismatchDicts (ex db : List Rec) : List Rec :=
  (mismatchRows ex db).map
    (fun j => setCol (rowDict db j) "Mismatch Reason" (Val.str "Amount Mismatch"))

/-- Lines 122-123 rendered: each Excel-only row as an output dict,
`Mismatch Reason` set to `'Only in Excel'`, `_merge` dropped. -/
def onlyExcelDicts (ex db : List Rec) : List Rec :=
  (onlyExcelRows ex db).map
    (fun j => setCol (rowDict db j) "Mismatch Reason" (Val.str "Only in Excel"))

/-- Lines 124-125 rendered: each DB-only row as an output dict,
`Mismatch Reason` set to `'Only in DB'`, `_merge` dropped. -/
def onlyDbDicts (ex db : List Rec) : List Rec :=
  (onlyDbRows ex db).map
    (fun j => setCol (rowDict db j) "Mismatch Reason" (Val.str "Only in DB"))

/-- Lines 134 and 137 rendered: each reconciled row as an output dict;
these rows keep the `_merge` indicator column (value `'both'`), which is
dropped only from the unreconciled frame (line 130). -/
def reconciledDicts (ex db : List Rec) : List Rec :=
  (reconciledRows ex db).map
    (fun j => rowDict db j ++ [("_merge", Val.str "both")])

/-- The JSON payload of a successful response (lines 146-149). -/
structure Output where
  reconciled : List Rec
  unreconciled : List Rec
  deriving DecidableEq, Repr

/-- The reconciliation core (lines 104-149): classify the outer-merge
rows, concatenate the three unreconciled categories in source order
(mismatches, Excel-only, DB-only; line 129), and return the pair. -/
def reconcileCore (ex db : List Rec) : Output :=
  { reconciled := reconciledDicts ex db,
    unreconciled := mismatchDicts ex db ++ onlyExcelDicts ex db ++ onlyDbDicts ex db }

/-- Line 55 as a predicate on a non-empty DB list:
`all(col in db_data[0] for col in REQUIRED_COLUMNS)` — only the FIRST
record's keys are inspected.  An empty list is not validated: it makes
`db_data[0]` raise.  This predicate also delimits the faithful region of
the embedding: without the required DB columns the source would raise a
`KeyError` at line 113 or 117 instead of producing output. -/
def validDb : List Rec → Bool
  | [] => false
  | r :: _ => REQUIRED_COLUMNS.all (fun c => hasField r c)

/-- No DB column collides with the merge machinery: pandas raises in
`merge` when the indicator name `_merge` or a suffixed name already
exists, so the embedding is faithful only away from those names. -/
def reservedFree (db : List Rec) : Bool :=
  !((dfCols db).contains "_merge") && !((dfCols db).contains "amount_excel") &&
    !((dfCols db).contains "amount_db")

/-- How a request can fail before the core runs. -/
inductive ApiError where
  /-- `db_data[0]` on an empty list (line 55): an `IndexError` that no
  handler of the function catches — the request dies with a generic
  exception, not a typed 400 response. -/
  | uncaughtIndexError
  /-- Line 57: 400, "Invalid DB data format". -/
  | invalidDbFormat
  /-- Line 102: 400, "Invalid Excel format". -/
  | invalidExcelFormat
  deriving DecidableEq, Repr

/-- The endpoint after parsing (lines 52-149), over the parsed DB
records, the spreadsheet's column list and its rows: first the DB check
of line 55 (first record only; empty list raises), then the Excel
column check of line 100, then the core. -/
def reconcileApp (excelCols : List String) (ex db : List Rec) :
    Except ApiError Output :=
  match db with
  | [] => Except.error ApiError.uncaughtIndexError
  | r :: _ =>
    if REQUIRED_COLUMNS.all (fun c => hasField r c) then
      if REQUIRED_COLUMNS.all (fun c => excelCols.contains c) then
        Except.ok (reconcileCore ex db)
      else Except.error ApiError.invalidExcelFormat
    else Except.error ApiError.invalidDbFormat

/-- Unordered dict equality: same keys, and the first binding of every
key agrees.  Used to compare output dicts without fixing a column
order (the source's column order depends on Python set iteration). -/
def dictEquiv (d e : Rec) : Bool :=
  d.all (fun p => e.lookup p.1 == d.lookup p.1) &&
    e.all (fun p => d.lookup p.1 == e.lookup p.1)

/-- Composite keys are pairwise distinct within a record collection. -/
abbrev keysUnique (rs : List Rec) : Prop := (rs.map keyOf).Nodup

/-- The number of output rows among `rows` that the join derived from
the given left (spreadsheet-side) record. -/
def leftCount (rows : List JoinRow) (l : Rec) : Nat :=
  rows.countP (fun j => j.left = some l)

/-- The number of output rows among `rows` that the join derived from
the given right (DB-side) record. -/
def rightCount (rows : List JoinRow) (r : Rec) : Nat :=
  rows.countP (fun j => j.right = some r)

/-- Number of occurrences of a record in a collection (by value). -/
def recCount (rs : List Rec) (r : Rec) : Nat := rs.countP (fun x => x = r)

/-- Number of BOTH join rows pairing exactly the two given records. -/
def pairCount (rows : List JoinRow) (l r : Rec) : Nat :=
  rows.countP (fun j => j = ⟨some l, some r⟩)

/-- Sample record: id 1, reference "A", amount 100. -/
def sampleA : Rec :=
  [("id", Val.int 1), ("reference", Val.str "A"), ("amount", Val.int 100)]

/-- Sample record with the same composite key as `sampleA` but amount 150. -/
def sampleA150 : Rec :=
  [("id", Val.int 1), ("reference", Val.str "A"), ("amount", Val.int 150)]

/-- Sample record missing the mandatory `amount` field. -/
def sampleNoAmount : Rec := [("id", Val.int 2), ("reference", Val.str "B")]

/-- Sample spreadsheet record carrying an extra `note` field. -/
def sampleNote : Rec :=
  [("id", Val.int 1), ("reference", Val.str "A"), ("amount", Val.int 100),
    ("note", Val.str "x")]

/-- Sample DB record carrying an extra `note` field. -/
def sampleDbNote : Rec :=
  [("id", Val.int 1), ("reference", Val.str "A"), ("amount", Val.int 100),
    ("note", Val.str "y")]

/-! ### Helper lemmas about lookups and the row builders -/

theorem getField_cutRec (r : Rec) (c : String) (hc : c ∈ REQUIRED_COLUMNS) :
    getField (cutRec r) c = getField r c := by
  simp only [REQUIRED_COLUMNS, List.mem_cons, List.not_mem_nil, or_false] at hc
  rcases hc with rfl | rfl | rfl <;> rfl

theorem keyOf_cutRec (r : Rec) : keyOf (cutRec r) = keyOf r := by
  unfold keyOf
  rw [getField_cutRec r "id" (by simp [REQUIRED_COLUMNS]),
    getField_cutRec r "reference" (by simp [REQUIRED_COLUMNS])]

theorem lookup_map_overwrite_ne (d : Rec) (c a : String) (v : Val) (h : a ≠ c) :
    (d.map (fun p => if p.1 = c then (c, v) else p)).lookup a = d.lookup a := by
  induction d with
  | nil => rfl
  | cons p ds ih =>
    rcases p with ⟨k, b⟩
    have h1 : (a == c) = false := by simpa using h
    by_cases hp : k = c
    · subst hp
      simp [List.map_cons, List.lookup_cons, h1, ih]
    · simp only [List.map_cons, List.lookup_cons]
      rw [if_neg (by simpa using hp)]
      cases hak : a == k <;> simp [List.lookup_cons, hak, ih]

theorem setCol_lookup_ne (d : Rec) (c a : String) (v : Val) (h : a ≠ c) :
    (setCol d c v).lookup a = d.lookup a := by
  unfold setCol
  split
  · exact lookup_map_overwrite_ne d c a v h
  · rw [List.lookup_append]
    have h1 : (a == c) = false := by simpa using h
    have hone : (([(c, v)] : Rec).lookup a) = none := by
      rw [List.lookup_cons, h1]; rfl
    rw [hone]
    cases d.lookup a <;> rfl

theorem setCol_lookup_self (d : Rec) (c : String) (v : Val) :
    (setCol d c v).lookup c = some v := by
  unfold setCol
  split
  · rename_i hany
    induction d with
    | nil => simp at hany
    | cons p ds ih =>
      rcases p with ⟨k, b⟩
      by_cases hp : k = c
      · subst hp
        simp [List.map_cons, List.lookup_cons]
      · simp only [List.any_cons, decide_eq_true_eq, hp, decide_False,
          Bool.false_or] at hany
        simp only [List.map_cons]
        rw [if_neg (by simpa using hp)]
        have h2 : (c == k) = false := by
          simpa using fun hc => hp hc.symm
        simp only [List.lookup_cons, h2]
        exact ih hany
  · rename_i hany
    rw [List.lookup_append]
    have hd : d.lookup c = none := by
      rw [List.lookup_eq_none_iff]
      intro p hp
      simp only [List.any_eq_true, decide_eq_true_eq] at hany
      have hne : ¬ p.1 = c := fun hc => hany ⟨p, hp, hc⟩
      simpa using fun hc => hne hc.symm
    rw [hd]
    simp [List.lookup_cons]

theorem mem_addCols_of_mem (r : Rec) (c : String) :
    ∀ acc : List String, c ∈ acc → c ∈ addCols acc r := by
  induction r with
  | nil => intro acc h; exact h
  | cons p ps ih =>
    intro acc h
    have hstep : addCols acc (p :: ps) =
        addCols (if acc.contains p.1 then acc else acc ++ [p.1]) ps := rfl
    rw [hstep]
    apply ih
    split
    · exact h
    · exact List.mem_append_left _ h

theorem mem_addCols_of_has (r : Rec) (c : String) (h : hasField r c = true) :
    ∀ acc : List String, c ∈ addCols acc r := by
  induction r with
  | nil => simp [hasField] at h
  | cons p ps ih =>
    intro acc
    rcases p with ⟨k, b⟩
    have hstep : addCols acc ((k, b) :: ps) =
        addCols (if acc.contains k then acc else acc ++ [k]) ps := rfl
    rw [hstep]
    by_cases hk : k = c
    · subst hk
      apply mem_addCols_of_mem
      split
      · rename_i hcont
        exact List.elem_iff.mp hcont
      · exact List.mem_append_right _ (List.mem_singleton.2 rfl)
    · have hck : (c == k) = false := by simpa using fun hc => hk hc.symm
      have h' : hasField ps c = true := by
        simpa [hasField, List.lookup_cons, hck] using h
      exact ih h' _

theorem mem_foldl_addCols_of_mem (rs : List Rec) (c : String) :
    ∀ acc : List String, c ∈ acc → c ∈ rs.foldl addCols acc := by
  induction rs with
  | nil => intro acc h; exact h
  | cons x xs ih => intro acc h; exact ih _ (mem_addCols_of_mem x c acc h)

theorem mem_foldl_addCols (rs : List Rec) (r : Rec) (c : String)
    (hr : r ∈ rs) (h : hasField r c = true) :
    ∀ acc : List String, c ∈ rs.foldl addCols acc := by
  induction rs with
  | nil => cases hr
  | cons x xs ih =>
    intro acc
    have hstep : (x :: xs).foldl addCols acc = xs.foldl addCols (addCols acc x) := rfl
    rw [hstep]
    rcases List.mem_cons.1 hr with rfl | hx
    · exact mem_foldl_addCols_of_mem xs c _ (mem_addCols_of_has r c h _)
    · exact ih hx _

theorem mem_dfCols (rs : List Rec) (r : Rec) (c : String)
    (hr : r ∈ rs) (h : hasField r c = true) : c ∈ dfCols rs :=
  mem_foldl_addCols rs r c hr h []

theorem rowDict_lookup_none (db : List Rec) (j : JoinRow) (c : String)
    (h1 : c ≠ "id") (h2 : c ≠ "reference") (h3 : c ≠ "amount_excel")
    (h4 : ∀ x ∈ rightCols db, outName x ≠ c) :
    (rowDict db j).lookup c = none := by
  rw [List.lookup_eq_none_iff]
  intro p hp
  simp only [rowDict, List.cons_append, List.nil_append, List.mem_cons,
    List.mem_map] at hp
  rcases hp with rfl | rfl | rfl | ⟨x, hx, rfl⟩
  · simpa using h1
  · simpa using h2
  · simpa using h3
  · simpa using fun hc => (h4 x hx) hc.symm

theorem lookup_map_outName (xs : List String) (g : String → Val) (c : String)
    (hc : c ∈ xs) (h4 : c ≠ "amount") (h5 : c ≠ "amount_db") :
    (xs.map (fun x => (outName x, g x))).lookup c = some (g c) := by
  induction xs with
  | nil => cases hc
  | cons x xs ih =>
    by_cases hx : outName x = c
    · have hxc : x = c := by
        unfold outName at hx
        split at hx
        · exact absurd hx.symm h5
        · exact hx
      have hoc : (c == outName c) = true := by simp [outName, if_neg h4]
      simp [List.map_cons, List.lookup_cons, hxc, hoc]
    · have hck : (c == outName x) = false := by
        simpa using fun hh => hx hh.symm
      simp only [List.map_cons, List.lookup_cons, hck]
      apply ih
      rcases List.mem_cons.1 hc with rfl | h
      · exact absurd (show outName c = c by unfold outName; rw [if_neg h4]) hx
      · exact h

theorem rowDict_lookup_right (db : List Rec) (j : JoinRow) (r : Rec) (c : String)
    (hj : j.right = some r) (hyc : c ∈ rightCols db)
    (h1 : c ≠ "id") (h2 : c ≠ "reference") (h3 : c ≠ "amount_excel")
    (h4 : c ≠ "amount") (h5 : c ≠ "amount_db") :
    (rowDict db j).lookup c = some (getField r c) := by
  unfold rowDict
  rw [List.lookup_append]
  have hfirst : (([("id", keyVal j "id"), ("reference", keyVal j "reference"),
      ("amount_excel", amountExcel j)] : Rec).lookup c) = none := by
    rw [List.lookup_eq_none_iff]
    intro p hp
    simp only [List.mem_cons, List.not_mem_nil, or_false] at hp
    rcases hp with rfl | rfl | rfl
    · simpa using h1
    · simpa using h2
    · simpa using h3
  rw [hfirst]
  simp only [hj]
  have hmap := lookup_map_outName (rightCols db) (fun x => getField r x) c hyc h4 h5
  simpa using hmap

theorem mem_leftRows_both (db : List Rec) (l r : Rec) (hr : r ∈ db)
    (hk : keyMatch l r = true) :
    (⟨some l, some r⟩ : JoinRow) ∈ leftRows db l := by
  unfold leftRows
  have hmem : r ∈ db.filter (fun x => keyMatch l x) := List.mem_filter.2 ⟨hr, hk⟩
  have hne : (db.filter (fun x => keyMatch l x)).isEmpty = false := by
    rw [List.isEmpty_eq_false]
    intro hnil
    rw [hnil] at hmem
    cases hmem
  rw [if_neg (by simp [hne])]
  exact List.mem_map.2 ⟨r, hmem, rfl⟩

theorem mem_leftPart_both (db : List Rec) (ex : List Rec) (l r : Rec)
    (hl : l ∈ ex) (hr : r ∈ db) (hk : keyMatch l r = true) :
    (⟨some l, some r⟩ : JoinRow) ∈ leftPart db ex := by
  induction ex with
  | nil => cases hl
  | cons l0 ls ih =>
    rcases List.mem_cons.1 hl with rfl | h
    · exact List.mem_append_left _ (mem_leftRows_both db _ r hr hk)
    · exact List.mem_append_right _ (ih h)

theorem mem_mergeRows_both (ex db : List Rec) (l r : Rec)
    (hl : l ∈ ex) (hr : r ∈ db) (hk : keyMatch l r = true) :
    (⟨some l, some r⟩ : JoinRow) ∈ mergeRows ex db :=
  List.mem_append_left _ (mem_leftPart_both db ex l r hl hr hk)

/-! ### Claim theorems -/

/-- C1: for every valid pair of input record sets and every
spreadsheet/DB record pair sharing the composite key `(id, reference)`,
the BOTH join row built from them is classified reconciled exactly when
the two amount values are equal under exact numeric equality (`pyEq`: no
tolerance, and a number never equals a string), and is classified as an
`Amount Mismatch` (AMOUNT_MISMATCH) row exactly when they differ. -/
theorem c1_amount_classification (ex db : List Rec) (l r : Rec) (a b : Int)
    (hv : validDb db = true) (hf : reservedFree db = true)
    (hl : l ∈ ex) (hr : r ∈ db) (hk : keyMatch (cutRec l) r = true)
    (ha : getField l "amount" = Val.int a)
    (hb : getField r "amount" = Val.int b) :
    ((⟨some (cutRec l), some r⟩ : JoinRow) ∈ reconciledRows ex db ↔ a = b) ∧
    ((⟨some (cutRec l), some r⟩ : JoinRow) ∈ mismatchRows ex db ↔ a ≠ b) := by
  have hmem : (⟨some (cutRec l), some r⟩ : JoinRow) ∈
      mergeRows (filteredExcel ex) db :=
    mem_mergeRows_both _ _ _ _ (List.mem_map.2 ⟨l, hl, rfl⟩) hr hk
  have hae : amountExcel ⟨some (cutRec l), some r⟩ = Val.int a := by
    simp only [amountExcel]
    rw [getField_cutRec l "amount" (by simp [REQUIRED_COLUMNS]), ha]
  have hbd : amountDb ⟨some (cutRec l), some r⟩ = Val.int b := by
    simp only [amountDb, hb]
  constructor
  · constructor
    · intro hmemf
      have hpred := (List.mem_filter.1 hmemf).2
      simp only [hae, hbd, isBoth, Option.isSome_some, Bool.and_self,
        Bool.true_and, pyEq] at hpred
      simpa using hpred
    · intro hab
      refine List.mem_filter.2 ⟨hmem, ?_⟩
      simp [hae, hbd, isBoth, pyEq, hab]
  · constructor
    · intro hmemf
      have hpred := (List.mem_filter.1 hmemf).2
      simp only [hae, hbd, isBoth, Option.isSome_some, Bool.and_self,
        Bool.true_and, pyEq] at hpred
      simpa using hpred
    · intro hab
      refine List.mem_filter.2 ⟨hmem, ?_⟩
      simp [hae, hbd, isBoth, pyEq, hab]

/-- C1 witness: the classification equivalence instantiated at the
single matching pair with amount 100 on both sides. -/
theorem c1_amount_classification_witness :
    ((⟨some (cutRec sampleA), some sampleA⟩ : JoinRow) ∈
        reconciledRows [sampleA] [sampleA] ↔ (100 : Int) = 100) ∧
    ((⟨some (cutRec sampleA), some sampleA⟩ : JoinRow) ∈
        mismatchRows [sampleA] [sampleA] ↔ (100 : Int) ≠ 100) :=
  c1_amount_classification [sampleA] [sampleA] sampleA sampleA 100 100
    (by decide) (by decide) (by decide) (by decide) (by decide)
    (by decide) (by decide)

/-- C9 counterexample: on Spreadsheet=[sampleA], Reference=[sampleA] the
single reconciled row is NOT the record with fields id/reference/amount
(not even up to field order): it has no `amount` field at all — the
merge suffixes split it into `amount_excel`/`amount_db` and the `_merge`
indicator is retained. -/
theorem c9_counterexample :
    (reconcileCore [sampleA] [sampleA]).unreconciled = [] ∧
    (reconcileCore [sampleA] [sampleA]).reconciled.length = 1 ∧
    dictEquiv ((reconcileCore [sampleA] [sampleA]).reconciled.headD [])
      [("id", Val.int 1), ("reference", Val.str "A"),
        ("amount", Val.int 100)] = false ∧
    ((reconcileCore [sampleA] [sampleA]).reconciled.headD []).lookup "amount" =
      none := by
  decide

/-- C9 amended: on Spreadsheet=[{id:1, reference:"A", amount:100}],
Reference=[the same record], reconcile returns an empty unreconciled
sequence and exactly one reconciled row, whose fields are id:1,
reference:"A", amount_excel:100, amount_db:100 and _merge:"both". -/
theorem c9_example_output :
    (reconcileCore [sampleA] [sampleA]).unreconciled = [] ∧
    (reconcileCore [sampleA] [sampleA]).reconciled.length = 1 ∧
    dictEquiv ((reconcileCore [sampleA] [sampleA]).reconciled.headD [])
      [("id", Val.int 1), ("reference", Val.str "A"),
        ("amount_excel", Val.int 100), ("amount_db", Val.int 100),
        ("_merge", Val.str "both")] = true := by
  decide

/-- C3 counterexample: an empty spreadsheet record set is not rejected by
any typed error — the request succeeds — and an empty reference record
set dies with the uncaught `IndexError` of `db_data[0]` (a generic
exception), not a typed `EmptyInputError`. -/
theorem c3_counterexample :
    reconcileApp ["id", "reference", "amount"] [] [sampleA] =
      Except.ok
        { reconciled := [],
          unreconciled := [[("id", Val.int 1), ("reference", Val.str "A"),
            ("amount_excel", Val.nan), ("amount_db", Val.int 100),
            ("Mismatch Reason", Val.str "Only in DB")]] } ∧
    reconcileApp ["id", "reference", "amount"] [sampleA] [] =
      Except.error ApiError.uncaughtIndexError :=
  ⟨rfl, rfl⟩

/-- C3 amended: an empty reference set makes line 55 raise an uncaught
`IndexError` (a generic exception, not a typed `EmptyInputError`), while
an empty (or any) spreadsheet set with the required columns present is
not rejected at all and the core produces a normal result. -/
theorem c3_empty_input_behavior :
    (∀ excelCols : List String, ∀ ex : List Rec,
      reconcileApp excelCols ex [] = Except.error ApiError.uncaughtIndexError) ∧
    (∀ ex db : List Rec, validDb db = true →
      reconcileApp ["id", "reference", "amount"] ex db =
        Except.ok (reconcileCore ex db)) := by
  constructor
  · intro excelCols ex
    rfl
  · intro ex db hv
    match db with
    | [] => simp [validDb] at hv
    | r :: rest =>
      have hr : REQUIRED_COLUMNS.all (fun c => hasField r c) = true := hv
      simp only [reconcileApp]
      rw [if_pos hr, if_pos (by decide)]

/-- C3 amended witness: the non-rejection branch at an empty spreadsheet
set against a well-formed one-record reference set. -/
theorem c3_empty_input_behavior_witness :
    reconcileApp ["id", "reference", "amount"] [] [sampleA] =
      Except.ok (reconcileCore [] [sampleA]) :=
  c3_empty_input_behavior.2 [] [sampleA] (by decide)

/-- C4 counterexample: the second reference record lacks the mandatory
`amount` field, yet reconcile raises no error at all: the record flows
through the join (its amount read as NaN) and the request succeeds. -/
theorem c4_counterexample :
    reconcileApp ["id", "reference", "amount"] [sampleA]
        [sampleA, sampleNoAmount] =
      Except.ok
        { reconciled := [[("id", Val.int 1), ("reference", Val.str "A"),
            ("amount_excel", Val.int 100), ("amount_db", Val.int 100),
            ("_merge", Val.str "both")]],
          unreconciled := [[("id", Val.int 2), ("reference", Val.str "B"),
            ("amount_excel", Val.nan), ("amount_db", Val.nan),
            ("Mismatch Reason", Val.str "Only in DB")]] } :=
  rfl

/-- C4 amended: schema validation fires before any join work — but it
inspects only the FIRST reference record's keys (line 55) and the
spreadsheet frame's column set (line 100); when either check fails the
request returns the corresponding typed 400 error and no join output is
produced.  Records after the first missing a field are not rejected (see
the counterexample). -/
theorem c4_schema_validation :
    (∀ excelCols : List String, ∀ ex : List Rec, ∀ r : Rec, ∀ rest : List Rec,
      REQUIRED_COLUMNS.all (fun c => hasField r c) = false →
      reconcileApp excelCols ex (r :: rest) =
        Except.error ApiError.invalidDbFormat) ∧
    (∀ excelCols : List String, ∀ ex db : List Rec, validDb db = true →
      REQUIRED_COLUMNS.all (fun c => excelCols.contains c) = false →
      reconcileApp excelCols ex db = Except.error ApiError.invalidExcelFormat) := by
  constructor
  · intro excelCols ex r rest hr
    simp only [reconcileApp]
    rw [if_neg (by rw [hr]; exact Bool.false_ne_true)]
  · intro excelCols ex db hv hx
    match db with
    | [] => simp [validDb] at hv
    | r :: rest =>
      have hr : REQUIRED_COLUMNS.all (fun c => hasField r c) = true := hv
      simp only [reconcileApp]
      rw [if_pos hr, if_neg (by rw [hx]; exact Bool.false_ne_true)]

/-- C4 amended witness: a first reference record missing `amount` is
rejected with the typed invalid-DB-format error before any join. -/
theorem c4_schema_validation_witness :
    reconcileApp ["id", "reference", "amount"] [sampleA] [sampleNoAmount] =
      Except.error ApiError.invalidDbFormat :=
  c4_schema_validation.1 ["id", "reference", "amount"] [sampleA]
    sampleNoAmount [] (by decide)

/-- C6: for every valid pair of input record sets, the unreconciled
output is exactly the concatenation of the Amount Mismatch rows, then
the Only-in-Excel rows, then the Only-in-DB rows, in that category
order; no row is filtered or deduplicated during assembly (the lengths
add up), and the result is the pair of the reconciled and unreconciled
sequences. -/
theorem c6_assembly (ex db : List Rec) (hv : validDb db = true)
    (hf : reservedFree db = true) :
    (reconcileCore ex db).unreconciled =
      mismatchDicts ex db ++ onlyExcelDicts ex db ++ onlyDbDicts ex db ∧
    (reconcileCore ex db).unreconciled.length =
      (mismatchRows ex db).length + (onlyExcelRows ex db).length +
        (onlyDbRows ex db).length ∧
    reconcileCore ex db =
      { reconciled := reconciledDicts ex db,
        unreconciled :=
          mismatchDicts ex db ++ onlyExcelDicts ex db ++ onlyDbDicts ex db } := by
  refine ⟨rfl, ?_, rfl⟩
  simp only [reconcileCore, mismatchDicts, onlyExcelDicts, onlyDbDicts,
    List.length_append, List.length_map]

/-- C6 witness: the assembly equation at a concrete input with one
mismatch row and one DB-only row. -/
theorem c6_assembly_witness :
    (reconcileCore [sampleA] [sampleA150, sampleNoAmount]).unreconciled =
      mismatchDicts [sampleA] [sampleA150, sampleNoAmount] ++
        onlyExcelDicts [sampleA] [sampleA150, sampleNoAmount] ++
        onlyDbDicts [sampleA] [sampleA150, sampleNoAmount] :=
  (c6_assembly [sampleA] [sampleA150, sampleNoAmount]
    (by decide) (by decide)).1

/-- C10: every reconciled output row still carries the internal pandas
`_merge` indicator field with value "both" (the source drops that column
only from the unreconciled frame, line 130), while every unreconciled
output row has no `_merge` field; the two output shapes differ. -/
theorem c10_merge_indicator (ex db : List Rec)
    (hv : validDb db = true) (hf : reservedFree db = true) :
    (∀ d ∈ (reconcileCore ex db).reconciled,
      d.lookup "_merge" = some (Val.str "both")) ∧
    (∀ d ∈ (reconcileCore ex db).unreconciled, d.lookup "_merge" = none) := by
  have hnone : ∀ j : JoinRow, (rowDict db j).lookup "_merge" = none := by
    intro j
    apply rowDict_lookup_none db j "_merge" (by decide) (by decide) (by decide)
    intro x hx hco
    have hxm : x = "_merge" := by
      unfold outName at hco
      split at hco
      · exact absurd hco (by decide)
      · exact hco
    have hdf : x ∈ dfCols db := (List.mem_filter.1 hx).1
    rw [hxm] at hdf
    have hc : (dfCols db).contains "_merge" = true := List.elem_iff.2 hdf
    simp only [reservedFree, Bool.and_eq_true, Bool.not_eq_true'] at hf
    rw [hf.1.1] at hc
    exact Bool.false_ne_true hc
  constructor
  · intro d hd
    rcases List.mem_map.1 hd with ⟨j, hj, rfl⟩
    rw [List.lookup_append, hnone j]
    simp [List.lookup_cons]
  · intro d hd
    have hset : ∀ (j : JoinRow) (v : Val),
        (setCol (rowDict db j) "Mismatch Reason" v).lookup "_merge" = none := by
      intro j v
      rw [setCol_lookup_ne _ _ _ _ (by decide), hnone j]
    rcases List.mem_append.1 hd with hd' | hd'
    · rcases List.mem_append.1 hd' with hd'' | hd''
      · rcases List.mem_map.1 hd'' with ⟨j, hj, rfl⟩
        exact hset j _
      · rcases List.mem_map.1 hd'' with ⟨j, hj, rfl⟩
        exact hset j _
    · rcases List.mem_map.1 hd' with ⟨j, hj, rfl⟩
      exact hset j _

/-- C10 witness: the indicator field evaluated on both output shapes at
a concrete input with one reconciled and one DB-only row. -/
theorem c10_merge_indicator_witness :
    ((reconcileCore [sampleA] [sampleA, sampleNoAmount]).reconciled.headD
      []).lookup "_merge" = some (Val.str "both") ∧
    ((reconcileCore [sampleA] [sampleA, sampleNoAmount]).unreconciled.headD
      []).lookup "_merge" = none :=
  ⟨(c10_merge_indicator [sampleA] [sampleA, sampleNoAmount]
      (by decide) (by decide)).1 _ (by decide),
    (c10_merge_indicator [sampleA] [sampleA, sampleNoAmount]
      (by decide) (by decide)).2 _ (by decide)⟩

/-- C7: reconciling an empty spreadsheet record set against a non-empty
(valid) reference record set yields an empty reconciled sequence, and
the unreconciled sequence is exactly one row per reference record, in
order, each tagged "Only in DB" (ONLY_IN_REFERENCE). -/
theorem c7_empty_spreadsheet (db : List Rec) (hne : db ≠ [])
    (hv : validDb db = true) (hf : reservedFree db = true) :
    (reconcileCore [] db).reconciled = [] ∧
    (reconcileCore [] db).unreconciled =
      db.map (fun r =>
        setCol (rowDict db ⟨none, some r⟩) "Mismatch Reason"
          (Val.str "Only in DB")) ∧
    ∀ d ∈ (reconcileCore [] db).unreconciled,
      d.lookup "Mismatch Reason" = some (Val.str "Only in DB") := by
  have hfilter :
      db.filter (fun r => ([] : List Rec).all (fun l => !(keyMatch l r))) = db := by
    rw [List.filter_eq_self]
    intro a ha
    simp
  have hmerge : mergeRows (filteredExcel []) db =
      db.map (fun r => (⟨none, some r⟩ : JoinRow)) := by
    unfold mergeRows
    simp only [filteredExcel, List.map_nil]
    rw [show leftPart db [] = [] from rfl, List.nil_append, hfilter]
  have hrec : reconciledRows [] db = [] := by
    unfold reconciledRows
    rw [hmerge, List.filter_map]
    have hzero : db.filter
        ((fun j => isBoth j && pyEq (amountExcel j) (amountDb j)) ∘
          (fun r => (⟨none, some r⟩ : JoinRow))) = [] := by
      apply List.filter_eq_nil_iff.2
      intro a ha
      simp [isBoth]
    rw [hzero, List.map_nil]
  have hmis : mismatchRows [] db = [] := by
    unfold mismatchRows
    rw [hmerge, List.filter_map]
    have hzero : db.filter
        ((fun j => isBoth j && !pyEq (amountExcel j) (amountDb j)) ∘
          (fun r => (⟨none, some r⟩ : JoinRow))) = [] := by
      apply List.filter_eq_nil_iff.2
      intro a ha
      simp [isBoth]
    rw [hzero, List.map_nil]
  have hoex : onlyExcelRows [] db = [] := by
    unfold onlyExcelRows
    rw [hmerge, List.filter_map]
    have hzero : db.filter
        (isLeftOnly ∘ (fun r => (⟨none, some r⟩ : JoinRow))) = [] := by
      apply List.filter_eq_nil_iff.2
      intro a ha
      simp [isLeftOnly]
    rw [hzero, List.map_nil]
  have hodb : onlyDbRows [] db = db.map (fun r => (⟨none, some r⟩ : JoinRow)) := by
    unfold onlyDbRows
    rw [hmerge, List.filter_map]
    have hall : db.filter
        (isRightOnly ∘ (fun r => (⟨none, some r⟩ : JoinRow))) = db := by
      rw [List.filter_eq_self]
      intro a ha
      simp [isRightOnly]
    rw [hall]
  have hunrec : (reconcileCore [] db).unreconciled =
      db.map (fun r =>
        setCol (rowDict db ⟨none, some r⟩) "Mismatch Reason"
          (Val.str "Only in DB")) := by
    show mismatchDicts [] db ++ onlyExcelDicts [] db ++ onlyDbDicts [] db = _
    unfold mismatchDicts onlyExcelDicts onlyDbDicts
    rw [hmis, hoex, hodb, List.map_nil, List.map_nil, List.nil_append,
      List.nil_append, List.map_map]
    rfl
  refine ⟨?_, hunrec, ?_⟩
  · show reconciledDicts [] db = []
    unfold reconciledDicts
    rw [hrec, List.map_nil]
  · intro d hd
    rw [hunrec] at hd
    rcases List.mem_map.1 hd with ⟨r, hr, rfl⟩
    exact setCol_lookup_self _ _ _

/-- C7 witness: the empty-spreadsheet boundary at a two-record reference
set. -/
theorem c7_empty_spreadsheet_witness :
    (reconcileCore [] [sampleA, sampleNoAmount]).reconciled = [] ∧
    (reconcileCore [] [sampleA, sampleNoAmount]).unreconciled =
      [sampleA, sampleNoAmount].map (fun r =>
        setCol (rowDict [sampleA, sampleNoAmount] ⟨none, some r⟩)
          "Mismatch Reason" (Val.str "Only in DB")) :=
  ⟨(c7_empty_spreadsheet [sampleA, sampleNoAmount] (by decide) (by decide)
      (by decide)).1,
    (c7_empty_spreadsheet [sampleA, sampleNoAmount] (by decide) (by decide)
      (by decide)).2.1⟩

/-- C5 counterexample: a spreadsheet record carrying an extra `note`
field is NOT passed through — line 105 cuts the spreadsheet frame down
to the required columns before the join, so the reconciled output row
derived from it has no `note` field. -/
theorem c5_counterexample :
    (reconcileCore [sampleNote] [sampleA]).reconciled.length = 1 ∧
    ((reconcileCore [sampleNote] [sampleA]).reconciled.headD []).lookup "note" =
      none := by
  decide

/-- C5 amended: extra fields are passed through unchanged on the
reference (DB) side only — every output row derived from a DB record
carries each of its non-reserved extra fields with the original value —
while extra spreadsheet-side fields are dropped before the join: a
column that is not required, not a DB column and not one of the merge
artefacts never occurs in any output row.  (Reconciled output rows are
exactly `rowDict .. ++ [(_merge, both)]` and unreconciled ones exactly
`setCol (rowDict ..) "Mismatch Reason" v`, so the first conjunct covers
every output shape.) -/
theorem c5_field_passthrough (ex db : List Rec) (hv : validDb db = true)
    (hf : reservedFree db = true) :
    (∀ r ∈ db, ∀ c : String, hasField r c = true → c ∉ REQUIRED_COLUMNS →
      c ≠ "Mismatch Reason" →
      ∀ j ∈ mergeRows (filteredExcel ex) db, j.right = some r →
        ((rowDict db j ++ [("_merge", Val.str "both")]).lookup c =
            some (getField r c) ∧
          ∀ v : Val, (setCol (rowDict db j) "Mismatch Reason" v).lookup c =
            some (getField r c))) ∧
    (∀ c : String, c ∉ REQUIRED_COLUMNS → (dfCols db).contains c = false →
      c ≠ "amount_excel" → c ≠ "amount_db" → c ≠ "_merge" →
      c ≠ "Mismatch Reason" →
      ∀ d ∈ (reconcileCore ex db).reconciled ++ (reconcileCore ex db).unreconciled,
        d.lookup c = none) := by
  have hfre : "_merge" ∉ dfCols db ∧ "amount_excel" ∉ dfCols db ∧
      "amount_db" ∉ dfCols db := by
    simp only [reservedFree, Bool.and_eq_true, Bool.not_eq_true'] at hf
    refine ⟨?_, ?_, ?_⟩
    · intro hmem
      have hc : (dfCols db).contains "_merge" = true := List.elem_iff.2 hmem
      rw [hf.1.1] at hc
      exact Bool.false_ne_true hc
    · intro hmem
      have hc : (dfCols db).contains "amount_excel" = true := List.elem_iff.2 hmem
      rw [hf.1.2] at hc
      exact Bool.false_ne_true hc
    · intro hmem
      have hc : (dfCols db).contains "amount_db" = true := List.elem_iff.2 hmem
      rw [hf.2] at hc
      exact Bool.false_ne_true hc
  constructor
  · intro r hr c hc hreq hmr j hj hright
    have hreq3 : c ≠ "id" ∧ c ≠ "reference" ∧ c ≠ "amount" := by
      refine ⟨?_, ?_, ?_⟩ <;> intro hcc <;> subst hcc <;>
        simp [REQUIRED_COLUMNS] at hreq
    have hdf : c ∈ dfCols db := mem_dfCols db r c hr hc
    have hae : c ≠ "amount_excel" := fun hcc => hfre.2.1 (hcc ▸ hdf)
    have hadb : c ≠ "amount_db" := fun hcc => hfre.2.2 (hcc ▸ hdf)
    have hrc : c ∈ rightCols db := by
      unfold rightCols
      refine List.mem_filter.2 ⟨hdf, ?_⟩
      simp [hreq3.1, hreq3.2.1]
    have hrow : (rowDict db j).lookup c = some (getField r c) :=
      rowDict_lookup_right db j r c hright hrc hreq3.1 hreq3.2.1 hae
        hreq3.2.2 hadb
    constructor
    · rw [List.lookup_append, hrow]
      rfl
    · intro v
      rw [setCol_lookup_ne _ _ _ _ hmr, hrow]
  · intro c hc hcont hae hadb hm hmr d hd
    have hcdf : c ∉ dfCols db := by
      intro hmem
      have hc2 : (dfCols db).contains c = true := List.elem_iff.2 hmem
      rw [hcont] at hc2
      exact Bool.false_ne_true hc2
    have hreq3 : c ≠ "id" ∧ c ≠ "reference" ∧ c ≠ "amount" := by
      refine ⟨?_, ?_, ?_⟩ <;> intro hcc <;> subst hcc <;>
        simp [REQUIRED_COLUMNS] at hc
    have hnone : ∀ j : JoinRow, (rowDict db j).lookup c = none := by
      intro j
      apply rowDict_lookup_none db j c hreq3.1 hreq3.2.1 hae
      intro x hx hco
      have hxm : x = c := by
        unfold outName at hco
        split at hco
        · exact absurd hco.symm hadb
        · exact hco
      exact hcdf (hxm ▸ (List.mem_filter.1 hx).1)
    rcases List.mem_append.1 hd with hd' | hd'
    · rcases List.mem_map.1 hd' with ⟨j, hj, rfl⟩
      rw [List.lookup_append, hnone j]
      have : (([("_merge", Val.str "both")] : Rec).lookup c) = none := by
        rw [List.lookup_eq_none_iff]
        intro p hp
        simp only [List.mem_cons, List.not_mem_nil, or_false] at hp
        subst hp
        simpa using hm
      rw [this]
      rfl
    · have hset : ∀ (j : JoinRow) (v : Val),
          (setCol (rowDict db j) "Mismatch Reason" v).lookup c = none := by
        intro j v
        rw [setCol_lookup_ne _ _ _ _ hmr, hnone j]
      rcases List.mem_append.1 hd' with hd'' | hd''
      · rcases List.mem_append.1 hd'' with hd3 | hd3
        · rcases List.mem_map.1 hd3 with ⟨j, hj, rfl⟩
          exact hset j _
        · rcases List.mem_map.1 hd3 with ⟨j, hj, rfl⟩
          exact hset j _
      · rcases List.mem_map.1 hd'' with ⟨j, hj, rfl⟩
        exact hset j _

/-- C5 amended witness: the DB-side `note` field of `sampleDbNote`
surfaces unchanged in the reconciled-row shape derived from it. -/
theorem c5_field_passthrough_witness :
    (rowDict [sampleDbNote] ⟨some (cutRec sampleA), some sampleDbNote⟩ ++
      [("_merge", Val.str "both")]).lookup "note" =
      some (getField sampleDbNote "note") :=
  ((c5_field_passthrough [sampleA] [sampleDbNote] (by decide) (by decide)).1
    sampleDbNote (by decide) "note" (by decide) (by decide) (by decide)
    ⟨some (cutRec sampleA), some sampleDbNote⟩ (by decide) rfl).1

theorem keyMatch_iff (l r : Rec) : keyMatch l r = true ↔ keyOf l = keyOf r := by
  simp [keyMatch]

theorem leftCount_rightOnly (rs : List Rec) (fl : Rec) :
    leftCount (rs.map (fun r => (⟨none, some r⟩ : JoinRow))) fl = 0 := by
  unfold leftCount
  rw [List.countP_eq_zero]
  intro j hj
  rcases List.mem_map.1 hj with ⟨r, hr, rfl⟩
  simp

theorem leftCount_leftRows_ne (db : List Rec) (l' fl : Rec) (h : l' ≠ fl) :
    leftCount (leftRows db l') fl = 0 := by
  unfold leftCount leftRows
  split
  · simp [h]
  · rw [List.countP_eq_zero]
    intro j hj
    rcases List.mem_map.1 hj with ⟨r, hr, rfl⟩
    simp [h]

theorem filter_keyMatch_length (db : List Rec) (l : Rec) (hdb : keysUnique db) :
    (db.filter (fun r => keyMatch l r)).length ≤ 1 := by
  induction db with
  | nil => simp
  | cons r0 rs ih =>
    unfold keysUnique at hdb
    rw [List.map_cons, List.nodup_cons] at hdb
    rw [List.filter_cons]
    by_cases hk : keyMatch l r0 = true
    · rw [if_pos hk]
      have hnil : rs.filter (fun r => keyMatch l r) = [] := by
        apply List.filter_eq_nil_iff.2
        intro r hr hkr
        apply hdb.1
        have h1 : keyOf r0 = keyOf r := by
          rw [← (keyMatch_iff l r0).1 hk, (keyMatch_iff l r).1 hkr]
        rw [h1]
        exact List.mem_map.2 ⟨r, hr, rfl⟩
      simp [hnil]
    · rw [if_neg hk]
      exact ih hdb.2

theorem leftCount_leftRows_self (db : List Rec) (fl : Rec)
    (hdb : keysUnique db) : leftCount (leftRows db fl) fl = 1 := by
  unfold leftCount leftRows
  split
  · simp
  · rename_i hne
    rw [List.countP_map]
    have hlen : (db.filter (fun r => keyMatch fl r)).length = 1 := by
      have hle := filter_keyMatch_length db fl hdb
      have hpos : (db.filter (fun r => keyMatch fl r)).length ≠ 0 := by
        intro h0
        exact hne (List.isEmpty_iff_length_eq_zero.2 h0)
      omega
    have htrue : ∀ r ∈ db.filter (fun r => keyMatch fl r),
        ((fun j : JoinRow => decide (j.left = some fl)) ∘
          (fun r => (⟨some fl, some r⟩ : JoinRow))) r = true := by
      intro r hr
      simp
    calc (db.filter (fun r => keyMatch fl r)).countP _ =
        (db.filter (fun r => keyMatch fl r)).countP (fun _ => true) :=
          List.countP_congr (by intro x hx; simp)
      _ = (db.filter (fun r => keyMatch fl r)).length := by
          rw [List.countP_true]
      _ = 1 := hlen

theorem leftCount_leftPart_zero (db : List Rec) (L : List Rec) (fl : Rec)
    (h : ∀ l' ∈ L, l' ≠ fl) : leftCount (leftPart db L) fl = 0 := by
  induction L with
  | nil => rfl
  | cons l0 ls ih =>
    show leftCount (leftRows db l0 ++ leftPart db ls) fl = 0
    unfold leftCount
    rw [List.countP_append]
    have h0 := leftCount_leftRows_ne db l0 fl (h l0 (List.mem_cons_self _ _))
    unfold leftCount at h0
    have h1 := ih (fun x hx => h x (List.mem_cons_of_mem _ hx))
    unfold leftCount at h1
    rw [h0, h1]

theorem cutRec_key_ne (x l : Rec) (h : keyOf x ≠ keyOf l) :
    cutRec x ≠ cutRec l := by
  intro hcc
  apply h
  have := congrArg keyOf hcc
  rwa [keyOf_cutRec, keyOf_cutRec] at this

theorem leftCount_leftPart_one (db : List Rec) (ex : List Rec) (l : Rec)
    (hl : l ∈ ex) (hex : keysUnique ex) (hdb : keysUnique db) :
    leftCount (leftPart db (filteredExcel ex)) (cutRec l) = 1 := by
  induction ex with
  | nil => cases hl
  | cons x xs ih =>
    unfold keysUnique at hex
    rw [List.map_cons, List.nodup_cons] at hex
    show leftCount (leftRows db (cutRec x) ++ leftPart db (filteredExcel xs))
      (cutRec l) = 1
    unfold leftCount
    rw [List.countP_append]
    rcases List.mem_cons.1 hl with rfl | hxs
    · have h1 := leftCount_leftRows_self db (cutRec l) hdb
      unfold leftCount at h1
      have h0 : leftCount (leftPart db (filteredExcel xs)) (cutRec l) = 0 := by
        apply leftCount_leftPart_zero
        intro l' hl'
        rcases List.mem_map.1 hl' with ⟨x', hx', rfl⟩
        apply cutRec_key_ne
        intro hkey
        apply hex.1
        rw [← hkey]
        exact List.mem_map.2 ⟨x', hx', rfl⟩
      unfold leftCount at h0
      rw [h1, h0]
    · have hxl : cutRec x ≠ cutRec l := by
        apply cutRec_key_ne
        intro hkey
        apply hex.1
        rw [hkey]
        exact List.mem_map.2 ⟨l, hxs, rfl⟩
      have h0 := leftCount_leftRows_ne db (cutRec x) (cutRec l) hxl
      unfold leftCount at h0
      have h1 := ih hxs hex.2
      unfold leftCount at h1
      rw [h0, h1]

theorem recCount_of_unique (db : List Rec) (r : Rec) (hr : r ∈ db)
    (hdb : keysUnique db) : recCount db r = 1 := by
  unfold recCount
  induction db with
  | nil => cases hr
  | cons x xs ih =>
    unfold keysUnique at hdb
    rw [List.map_cons, List.nodup_cons] at hdb
    rw [List.countP_cons]
    by_cases hxr : x = r
    · have h0 : xs.countP (fun y => decide (y = r)) = 0 := by
        rw [List.countP_eq_zero]
        intro y hy
        simp only [decide_eq_true_eq]
        intro hyr
        apply hdb.1
        rw [show keyOf x = keyOf y from by rw [hxr, hyr]]
        exact List.mem_map.2 ⟨y, hy, rfl⟩
      rw [h0, hxr]
      simp
    · have hxs : r ∈ xs := by
        rcases List.mem_cons.1 hr with h | h
        · exact absurd h.symm hxr
        · exact h
      rw [ih hxs hdb.2]
      simp [hxr]

theorem rightCount_leftRows (db : List Rec) (l' r : Rec) :
    rightCount (leftRows db l') r =
      if keyMatch l' r = true then recCount db r else 0 := by
  unfold rightCount leftRows recCount
  split
  · rename_i hemp
    have hms : db.filter (fun x => keyMatch l' x) = [] := List.isEmpty_iff.1 hemp
    by_cases hk : keyMatch l' r = true
    · rw [if_pos hk]
      have h0 : db.countP (fun x => decide (x = r)) = 0 := by
        rw [List.countP_eq_zero]
        intro x hx
        simp only [decide_eq_true_eq]
        intro hxr
        subst hxr
        have hmem : x ∈ db.filter (fun y => keyMatch l' y) :=
          List.mem_filter.2 ⟨hx, hk⟩
        rw [hms] at hmem
        cases hmem
      rw [h0]
      simp
    · rw [if_neg hk]
      simp
  · rw [List.countP_map, List.countP_filter]
    by_cases hk : keyMatch l' r = true
    · rw [if_pos hk]
      apply List.countP_congr
      intro x hx
      by_cases hxr : x = r
      · subst hxr
        simp [hk]
      · simp [hxr]
    · rw [if_neg hk]
      rw [List.countP_eq_zero]
      intro x hx
      simp only [Function.comp, Bool.and_eq_true, decide_eq_true_eq]
      rintro ⟨hpair, hkx⟩
      have hxr : x = r := by simpa using hpair
      subst hxr
      exact hk hkx

theorem rightCount_leftPart_zero (db : List Rec) (L : List Rec) (r : Rec)
    (h : ∀ l' ∈ L, keyMatch l' r = false) :
    rightCount (leftPart db L) r = 0 := by
  induction L with
  | nil => rfl
  | cons l0 ls ih =>
    show rightCount (leftRows db l0 ++ leftPart db ls) r = 0
    unfold rightCount
    rw [List.countP_append]
    have h0 := rightCount_leftRows db l0 r
    rw [if_neg (by rw [h l0 (List.mem_cons_self _ _)]; exact Bool.false_ne_true)]
      at h0
    unfold rightCount at h0
    have h1 := ih (fun x hx => h x (List.mem_cons_of_mem _ hx))
    unfold rightCount at h1
    rw [h0, h1]

theorem rightCount_leftPart (db : List Rec) (L : List Rec) (r : Rec)
    (hL : (L.map keyOf).Nodup) (hr : r ∈ db) (hdb : keysUnique db) :
    rightCount (leftPart db L) r =
      if L.any (fun l' => keyMatch l' r) = true then 1 else 0 := by
  induction L with
  | nil => simp [leftPart, rightCount]
  | cons l0 ls ih =>
    rw [List.map_cons, List.nodup_cons] at hL
    show rightCount (leftRows db l0 ++ leftPart db ls) r = _
    unfold rightCount
    rw [List.countP_append]
    by_cases hk : keyMatch l0 r = true
    · have hany : (l0 :: ls).any (fun l' => keyMatch l' r) = true := by
        simp [List.any_cons, hk]
      rw [if_pos hany]
      have hblock := rightCount_leftRows db l0 r
      rw [if_pos hk, recCount_of_unique db r hr hdb] at hblock
      unfold rightCount at hblock
      have hrest : rightCount (leftPart db ls) r = 0 := by
        apply rightCount_leftPart_zero
        intro l' hl'
        cases hkl : keyMatch l' r
        · rfl
        · exfalso
          apply hL.1
          have : keyOf l0 = keyOf l' := by
            rw [(keyMatch_iff l0 r).1 hk]
            exact ((keyMatch_iff l' r).1 hkl).symm
          rw [this]
          exact List.mem_map.2 ⟨l', hl', rfl⟩
      unfold rightCount at hrest
      rw [hblock, hrest]
    · have hblock := rightCount_leftRows db l0 r
      rw [if_neg hk] at hblock
      unfold rightCount at hblock
      have hany : (l0 :: ls).any (fun l' => keyMatch l' r) =
          ls.any (fun l' => keyMatch l' r) := by
        simp only [List.any_cons]
        rw [show keyMatch l0 r = false from by
          cases hkk : keyMatch l0 r
          · rfl
          · exact absurd hkk hk]
        rfl
      have h1 := ih hL.2
      unfold rightCount at h1
      rw [hblock, h1, hany]
      simp

theorem rightCount_rightPart (db : List Rec) (L : List Rec) (r : Rec)
    (hr : r ∈ db) (hdb : keysUnique db) :
    rightCount ((db.filter (fun x => L.all (fun l => !(keyMatch l x)))).map
      (fun x => (⟨none, some x⟩ : JoinRow))) r =
      if L.any (fun l' => keyMatch l' r) = true then 0 else 1 := by
  unfold rightCount
  by_cases hany : L.any (fun l' => keyMatch l' r) = true
  · rw [if_pos hany]
    rw [List.countP_eq_zero]
    intro j hj
    rcases List.mem_map.1 hj with ⟨x, hx, rfl⟩
    simp only [decide_eq_true_eq, Option.some.injEq]
    intro hxr
    subst hxr
    have hpass := (List.mem_filter.1 hx).2
    rcases List.any_eq_true.1 hany with ⟨l', hl', hkl⟩
    have := List.all_eq_true.1 hpass l' hl'
    rw [hkl] at this
    simp at this
  · rw [if_neg hany]
    rw [List.countP_map, List.countP_filter]
    have hall : ∀ l' ∈ L, keyMatch l' r = false := by
      intro l' hl'
      cases hkl : keyMatch l' r
      · rfl
      · exact absurd (List.any_eq_true.2 ⟨l', hl', hkl⟩) hany
    calc db.countP _ = db.countP (fun x => decide (x = r)) := by
          apply List.countP_congr
          intro x hx
          by_cases hxr : x = r
          · subst hxr
            have hallx : (L.all fun l => !(keyMatch l x)) = true := by
              rw [List.all_eq_true]
              intro l' hl'
              rw [hall l' hl']
              rfl
            simp [hallx]
          · simp [hxr]
      _ = 1 := recCount_of_unique db r hr hdb

theorem leftCount_merged (ex db : List Rec) (l : Rec) (hl : l ∈ ex)
    (hex : keysUnique ex) (hdb : keysUnique db) :
    leftCount (mergeRows (filteredExcel ex) db) (cutRec l) = 1 := by
  unfold mergeRows leftCount
  rw [List.countP_append]
  have h1 := leftCount_leftPart_one db ex l hl hex hdb
  unfold leftCount at h1
  have h0 := leftCount_rightOnly
    (db.filter (fun r => (filteredExcel ex).all (fun l' => !(keyMatch l' r))))
    (cutRec l)
  unfold leftCount at h0
  rw [h1, h0]

theorem filteredExcel_keys (ex : List Rec) :
    (filteredExcel ex).map keyOf = ex.map keyOf := by
  unfold filteredExcel
  rw [List.map_map]
  exact List.map_congr_left (fun x _ => keyOf_cutRec x)

theorem rightCount_merged (ex db : List Rec) (r : Rec) (hr : r ∈ db)
    (hex : keysUnique ex) (hdb : keysUnique db) :
    rightCount (mergeRows (filteredExcel ex) db) r = 1 := by
  unfold mergeRows rightCount
  rw [List.countP_append]
  have hkeys : ((filteredExcel ex).map keyOf).Nodup := by
    rw [filteredExcel_keys]
    exact hex
  have h1 := rightCount_leftPart db (filteredExcel ex) r hkeys hr hdb
  have h2 := rightCount_rightPart db (filteredExcel ex) r hr hdb
  unfold rightCount at h1 h2
  rw [h1, h2]
  by_cases hany : (filteredExcel ex).any (fun l' => keyMatch l' r) = true
  · rw [if_pos hany, if_pos hany]
  · rw [if_neg hany, if_neg hany]

theorem countP_add_classification (rows : List JoinRow) (p : JoinRow → Bool)
    (hp : ∀ j : JoinRow, p j = true → (j.left.isSome || j.right.isSome) = true) :
    (rows.filter (fun j => isBoth j && pyEq (amountExcel j) (amountDb j))).countP p +
      (rows.filter
        (fun j => isBoth j && !pyEq (amountExcel j) (amountDb j))).countP p +
      (rows.filter isLeftOnly).countP p +
      (rows.filter isRightOnly).countP p = rows.countP p := by
  rw [List.countP_filter, List.countP_filter, List.countP_filter,
    List.countP_filter]
  induction rows with
  | nil => rfl
  | cons j js ih =>
    rw [List.countP_cons, List.countP_cons, List.countP_cons, List.countP_cons,
      List.countP_cons]
    have hj : (if (p j && (isBoth j && pyEq (amountExcel j) (amountDb j))) = true
          then 1 else 0) +
        (if (p j && (isBoth j && !pyEq (amountExcel j) (amountDb j))) = true
          then 1 else 0) +
        (if (p j && isLeftOnly j) = true then 1 else 0) +
        (if (p j && isRightOnly j) = true then 1 else 0) =
        (if p j = true then 1 else 0) := by
      cases hpj : p j
      · simp
      · have hside := hp j hpj
        rcases hL : j.left with _ | l <;> rcases hR : j.right with _ | r
        · rw [hL, hR] at hside
          simp at hside
        · simp [isBoth, isLeftOnly, isRightOnly, hL, hR]
        · simp [isBoth, isLeftOnly, isRightOnly, hL, hR]
        · cases hpe : pyEq (amountExcel j) (amountDb j) <;>
            simp [isBoth, isLeftOnly, isRightOnly, hL, hR, hpe]
    omega

/-- C2 counterexample: with a duplicate composite key on the reference
side (amounts 100 and 150), the single spreadsheet record is carried
into TWO output categories: one of its BOTH pairings is reconciled and
the other is an Amount Mismatch row — the record is duplicated across
categories, so the claim fails as stated for arbitrary inputs. -/
theorem c2_counterexample :
    leftCount (reconciledRows [sampleA] [sampleA, sampleA150])
      (cutRec sampleA) = 1 ∧
    leftCount (mismatchRows [sampleA] [sampleA, sampleA150])
      (cutRec sampleA) = 1 := by
  decide

/-- C2 amended: when composite keys are unique within each source set
(the spec's stated invariant for Source Sets), every record of either
set is carried into exactly one output category — the numbers of output
rows derived from it in the reconciled, Amount Mismatch, Only-in-Excel
and Only-in-DB categories sum to one (no record dropped, none
duplicated across categories). -/
theorem c2_unique_key_partition (ex db : List Rec)
    (hv : validDb db = true) (hf : reservedFree db = true)
    (hex : keysUnique ex) (hdb : keysUnique db) :
    (∀ l ∈ ex,
      leftCount (reconciledRows ex db) (cutRec l) +
        leftCount (mismatchRows ex db) (cutRec l) +
        leftCount (onlyExcelRows ex db) (cutRec l) +
        leftCount (onlyDbRows ex db) (cutRec l) = 1) ∧
    (∀ r ∈ db,
      rightCount (reconciledRows ex db) r +
        rightCount (mismatchRows ex db) r +
        rightCount (onlyExcelRows ex db) r +
        rightCount (onlyDbRows ex db) r = 1) := by
  constructor
  · intro l hl
    have hpart := countP_add_classification (mergeRows (filteredExcel ex) db)
      (fun j => decide (j.left = some (cutRec l)))
      (by
        intro j hpj
        simp only [decide_eq_true_eq] at hpj
        rw [hpj]
        rfl)
    have hone := leftCount_merged ex db l hl hex hdb
    unfold leftCount at hone
    unfold reconciledRows mismatchRows onlyExcelRows onlyDbRows leftCount
    rw [hpart, hone]
  · intro r hr
    have hpart := countP_add_classification (mergeRows (filteredExcel ex) db)
      (fun j => decide (j.right = some r))
      (by
        intro j hpj
        simp only [decide_eq_true_eq] at hpj
        rw [hpj]
        simp)
    have hone := rightCount_merged ex db r hr hex hdb
    unfold rightCount at hone
    unfold reconciledRows mismatchRows onlyExcelRows onlyDbRows rightCount
    rw [hpart, hone]

/-- C2 amended witness: the category counts of the single spreadsheet
record, and of the single reference record, at a concrete unique-key
input with one mismatched pairing. -/
theorem c2_unique_key_partition_witness :
    (leftCount (reconciledRows [sampleA] [sampleA150]) (cutRec sampleA) +
      leftCount (mismatchRows [sampleA] [sampleA150]) (cutRec sampleA) +
      leftCount (onlyExcelRows [sampleA] [sampleA150]) (cutRec sampleA) +
      leftCount (onlyDbRows [sampleA] [sampleA150]) (cutRec sampleA) = 1) ∧
    (rightCount (reconciledRows [sampleA] [sampleA150]) sampleA150 +
      rightCount (mismatchRows [sampleA] [sampleA150]) sampleA150 +
      rightCount (onlyExcelRows [sampleA] [sampleA150]) sampleA150 +
      rightCount (onlyDbRows [sampleA] [sampleA150]) sampleA150 = 1) :=
  ⟨(c2_unique_key_partition [sampleA] [sampleA150] (by decide) (by decide)
      (by decide) (by decide)).1 sampleA (by decide),
    (c2_unique_key_partition [sampleA] [sampleA150] (by decide) (by decide)
      (by decide) (by decide)).2 sampleA150 (by decide)⟩

theorem pairCount_leftRows_self (db : List Rec) (l r : Rec)
    (hk : keyMatch l r = true) :
    pairCount (leftRows db l) l r = recCount db r := by
  unfold pairCount leftRows recCount
  split
  · rename_i hemp
    have hms : db.filter (fun x => keyMatch l x) = [] := List.isEmpty_iff.1 hemp
    have h0 : db.countP (fun x => decide (x = r)) = 0 := by
      rw [List.countP_eq_zero]
      intro x hx
      simp only [decide_eq_true_eq]
      intro hxr
      subst hxr
      have hmem : x ∈ db.filter (fun y => keyMatch l y) :=
        List.mem_filter.2 ⟨hx, hk⟩
      rw [hms] at hmem
      cases hmem
    rw [h0]
    simp
  · rw [List.countP_map, List.countP_filter]
    apply List.countP_congr
    intro x hx
    by_cases hxr : x = r
    · subst hxr
      simp [hk]
    · simp [hxr]

theorem pairCount_leftRows_ne (db : List Rec) (l' l r : Rec) (h : l' ≠ l) :
    pairCount (leftRows db l') l r = 0 := by
  unfold pairCount leftRows
  split
  · simp [h]
  · rw [List.countP_eq_zero]
    intro j hj
    rcases List.mem_map.1 hj with ⟨x, hx, rfl⟩
    simp [h]

theorem pairCount_leftPart (db : List Rec) (L : List Rec) (l r : Rec)
    (hk : keyMatch l r = true) :
    pairCount (leftPart db L) l r = recCount L l * recCount db r := by
  induction L with
  | nil => simp [leftPart, pairCount, recCount]
  | cons l0 ls ih =>
    show pairCount (leftRows db l0 ++ leftPart db ls) l r = _
    unfold pairCount
    rw [List.countP_append]
    unfold recCount
    rw [List.countP_cons]
    unfold pairCount at ih
    unfold recCount at ih
    by_cases h0 : l0 = l
    · subst h0
      have hs := pairCount_leftRows_self db l0 r hk
      unfold pairCount recCount at hs
      rw [hs, ih]
      simp [Nat.add_mul]
      ring
    · have hs := pairCount_leftRows_ne db l0 l r h0
      unfold pairCount at hs
      rw [hs, ih]
      simp [h0]

theorem exists_left_in_leftRows (db : List Rec) (x : Rec) :
    ∃ j ∈ leftRows db x, j.left = some x := by
  unfold leftRows
  split
  · exact ⟨⟨some x, none⟩, List.mem_singleton.2 rfl, rfl⟩
  · rename_i hne
    have hemp : (db.filter (fun y => keyMatch x y)).isEmpty = false := by
      cases h : (db.filter (fun y => keyMatch x y)).isEmpty
      · rfl
      · exact absurd h hne
    rcases List.isEmpty_eq_false_iff_exists_mem.1 hemp with ⟨m, hm⟩
    exact ⟨⟨some x, some m⟩, List.mem_map.2 ⟨m, hm, rfl⟩, rfl⟩

theorem exists_left_in_leftPart (db : List Rec) (L : List Rec) (x : Rec)
    (hx : x ∈ L) : ∃ j ∈ leftPart db L, j.left = some x := by
  induction L with
  | nil => cases hx
  | cons l0 ls ih =>
    rcases List.mem_cons.1 hx with rfl | h
    · rcases exists_left_in_leftRows db x with ⟨j, hj, hjl⟩
      exact ⟨j, List.mem_append_left _ hj, hjl⟩
    · rcases ih h with ⟨j, hj, hjl⟩
      exact ⟨j, List.mem_append_right _ hj, hjl⟩

/-- C8: duplicate composite keys do not break the join: it still
terminates (`mergeRows` is a total function), drops no record from
either side (every record is a side of at least one join row), and
emits exactly one BOTH join row per left-record/right-record pairing
sharing the key — the number of `(l, r)` rows is the product of the
multiplicities of `l` on the left and `r` on the right, a cross product
of the duplicate-keyed rows. -/
theorem c8_join_cross_product (L R : List Rec) (l r : Rec)
    (hk : keyMatch l r = true) :
    pairCount (mergeRows L R) l r = recCount L l * recCount R r ∧
    (∀ x ∈ L, ∃ j ∈ mergeRows L R, j.left = some x) ∧
    (∀ y ∈ R, ∃ j ∈ mergeRows L R, j.right = some y) := by
  refine ⟨?_, ?_, ?_⟩
  · unfold mergeRows pairCount
    rw [List.countP_append]
    have h1 := pairCount_leftPart R L l r hk
    unfold pairCount at h1
    have h0 : List.countP (fun j => decide (j = (⟨some l, some r⟩ : JoinRow)))
        ((R.filter (fun x => L.all (fun l' => !(keyMatch l' x)))).map
          (fun x => (⟨none, some x⟩ : JoinRow))) = 0 := by
      rw [List.countP_eq_zero]
      intro j hj
      rcases List.mem_map.1 hj with ⟨x, hx, rfl⟩
      simp
    rw [h1, h0, Nat.add_zero]
  · intro x hx
    rcases exists_left_in_leftPart R L x hx with ⟨j, hj, hjl⟩
    exact ⟨j, List.mem_append_left _ hj, hjl⟩
  · intro y hy
    by_cases hmatch : ∃ l' ∈ L, keyMatch l' y = true
    · rcases hmatch with ⟨l', hl', hkl⟩
      exact ⟨⟨some l', some y⟩, mem_mergeRows_both L R l' y hl' hy hkl, rfl⟩
    · have hpass : (L.all (fun l' => !(keyMatch l' y))) = true := by
        rw [List.all_eq_true]
        intro l' hl'
        cases hkl : keyMatch l' y
        · rfl
        · exact absurd ⟨l', hl', hkl⟩ hmatch
      refine ⟨⟨none, some y⟩, List.mem_append_right _ ?_, rfl⟩
      exact List.mem_map.2 ⟨y, List.mem_filter.2 ⟨hy, hpass⟩, rfl⟩

/-- C8 witness: a duplicated left record (two copies) against one
matching right record yields two BOTH pairings — the 2 x 1 cross
product. -/
theorem c8_join_cross_product_witness :
    pairCount (mergeRows [sampleA, sampleA] [sampleA150]) sampleA sampleA150 =
      2 := by
  have h := (c8_join_cross_product [sampleA, sampleA] [sampleA150] sampleA
    sampleA150 (by decide)).1
  rw [h]
  decide
